import Mathlib

/-!
# Verification of the janux-persist DAO layer

Shallow embedding of the janux-persistence repository's data-access layer:

* the abstract DAO base class of `src/unnamed/part_000` (variant "A" below),
  whose `insert`/`update`/`find*` lifecycle is validate → timestamp → persist →
  rehydrate, with `addExtraValues` restoring id/uuid/dateCreated/lastUpdate;
* the second abstract DAO base class embedded in
  `src/src/persistence/impl/db-engine-util-mongodb.ts` (variant "B" below),
  whose id precondition is keyed off `entityProperties.autoGenerated` and whose
  generated uuid is assigned to the `id` attribute;
* the per-entity uniqueness filters of `RoleDaoMongoDbImpl.validateBeforeUpdate`
  and `AccountDaoMongodbImpl.validateBeforeUpdate`;
* the `RoleService` role/permission-bit association bookkeeping of
  `src/unnamed/part_000`.

JavaScript `null`/`undefined` attribute values are modelled with `Option`;
promise resolution/rejection is modelled with the `DaoResult` sum type.
-/

/-- A validation error, as built by the `ValidationError` constructor
(attribute, message, value); the source's `attribute` field is named
`attributeName` here because `attribute` is reserved in Lean. -/
structure VErr where
  attributeName : String
  message : String
  value : String
deriving DecidableEq, Repr

/-- The value a promise is rejected with: either a plain string message
(`Promise.reject('Object has a defined id')`) or a list of validation
errors (`Promise.reject(errors)`). -/
inductive Reject where
  | msg : String → Reject
  | errors : List VErr → Reject
deriving DecidableEq, Repr

/-- Outcome of a DAO promise: `ok` for a resolved value, `rejected` for a
rejected promise. -/
inductive DaoResult (α : Type) where
  | ok : α → DaoResult α
  | rejected : Reject → DaoResult α
deriving DecidableEq, Repr

/-- An entity object as manipulated by the abstract DAO base classes: the four
attributes the base class reads or writes (`id`, `uuid`, `dateCreated`,
`lastUpdate`; each possibly null/undefined, hence `Option`) together with the
entity payload, which the base class never touches. -/
structure Obj where
  id : Option String := none
  uuid : Option String := none
  dateCreated : Option Nat := none
  lastUpdate : Option Nat := none
  data : String := ""
deriving DecidableEq, Repr

/-- `EntityProperties` / `EntityPropertiesImpl`: the per-DAO configuration
flags.  Both flags can be null/undefined in JavaScript, hence `Option Bool`. -/
structure EntityProperties where
  autoGenerated : Option Bool := none
  timeStamp : Option Bool := none
deriving DecidableEq, Repr

/-- The database state seen by an engine adapter: the list of stored records. -/
abbrev Db := List Obj

/-- Modelled from the spec: `TimeStampGenerator.generateTimeStampForInsert`
(the util module is not under `src/`).  Per the class documentation of the
db-engine-util base class ("If EntityPropertiesImpl.timeStamp is true. Then the
dao assigns a [dateCreated] attribute per each insertMethod"), it assigns the
current time to the `dateCreated` attribute when timestamping is enabled. -/
def TimeStampGenerator.generateTimeStampForInsert
    (entityProperties : Option EntityProperties) (now : Nat) (obj : Obj) : Obj :=
  match entityProperties with
  | none => obj
  | some p => if p.timeStamp = some true then { obj with dateCreated := some now } else obj

/-- Modelled from the spec: `TimeStampGenerator.generateTimeStampForUpdate`
(the util module is not under `src/`).  Per the same class documentation
("a lastUpdate attribute per each updateMethod"), it assigns the current time
to the `lastUpdate` attribute when timestamping is enabled. -/
def TimeStampGenerator.generateTimeStampForUpdate
    (entityProperties : Option EntityProperties) (now : Nat) (obj : Obj) : Obj :=
  match entityProperties with
  | none => obj
  | some p => if p.timeStamp = some true then { obj with lastUpdate := some now } else obj

/-- Modelled from the spec: `UuidGenerator.assignUuid`, used by the part_000
base class (the util module is not under `src/`).  That class's
`addExtraValues` treats `UuidGenerator.UUID_PROPERTY` as an attribute distinct
from `id`, so the generated uuid is stored in the `uuid` attribute; generation
is keyed off `entityProperties.autoGenerated` per the documented meaning of
that flag. -/
def UuidGenerator.assignUuid
    (entityProperties : Option EntityProperties) (fresh : String) (obj : Obj) : Obj :=
  match entityProperties with
  | none => obj
  | some p => if p.autoGenerated = some true then { obj with uuid := some fresh } else obj

/-- Modelled from the spec: `UuidGenerator.assignUUIDToIdAttribute`, used by
the db-engine-util base class (the util module is not under `src/`).  Per that
class's documentation ("Adds a uuid v4 value to the \x22id\x22 attribute if
entityProperties.autoGenerated is true"), it assigns the generated uuid to the
`id` attribute when auto-generation is enabled. -/
def UuidGenerator.assignUUIDToIdAttribute
    (entityProperties : Option EntityProperties) (fresh : String) (obj : Obj) : Obj :=
  match entityProperties with
  | none => obj
  | some p => if p.autoGenerated = some true then { obj with id := some fresh } else obj

/-- Modelled from the spec: `isBlankString` of `util/blank-string-validator`
(not under `src/`): true when the value is null/undefined or the string is
empty (a whitespace-only string is identified with the empty string here; no
claim distinguishes them). -/
def isBlankString (s : Option String) : Bool :=
  match s with
  | none => true
  | some str => str = ""

/-- Modelled from the spec: `isValidId` of `util/id_validator` (not under
`src/`): the object has a usable, non-blank id. -/
def isValidId (s : Option String) : Bool :=
  !(isBlankString s)

/-- `addExtraValues` of the part_000 base class: copies `id`, `uuid`,
`dateCreated` and `lastUpdate` from `reference` onto `obj` whenever they are
non-nil on `reference`. -/
def addExtraValuesA (obj reference : Obj) : Obj :=
  let obj1 := if reference.id.isSome then { obj with id := reference.id } else obj
  let obj2 := if reference.uuid.isSome then { obj1 with uuid := reference.uuid } else obj1
  let obj3 :=
    if reference.dateCreated.isSome then { obj2 with dateCreated := reference.dateCreated }
    else obj2
  if reference.lastUpdate.isSome then { obj3 with lastUpdate := reference.lastUpdate } else obj3

/-- `addExtraValues` of the db-engine-util base class: same as the part_000
version but without the `uuid` attribute. -/
def addExtraValuesB (obj reference : Obj) : Obj :=
  let obj1 := if reference.id.isSome then { obj with id := reference.id } else obj
  let obj2 :=
    if reference.dateCreated.isSome then { obj1 with dateCreated := reference.dateCreated }
    else obj1
  if reference.lastUpdate.isSome then { obj2 with lastUpdate := reference.lastUpdate } else obj2

theorem addExtraValuesA_id (o r : Obj) :
    (addExtraValuesA o r).id = if r.id.isSome then r.id else o.id := by
  unfold addExtraValuesA
  by_cases h1 : r.id.isSome <;> by_cases h2 : r.uuid.isSome <;>
    by_cases h3 : r.dateCreated.isSome <;> by_cases h4 : r.lastUpdate.isSome <;>
    simp [h1, h2, h3, h4]

theorem addExtraValuesA_uuid (o r : Obj) :
    (addExtraValuesA o r).uuid = if r.uuid.isSome then r.uuid else o.uuid := by
  unfold addExtraValuesA
  by_cases h1 : r.id.isSome <;> by_cases h2 : r.uuid.isSome <;>
    by_cases h3 : r.dateCreated.isSome <;> by_cases h4 : r.lastUpdate.isSome <;>
    simp [h1, h2, h3, h4]

theorem addExtraValuesA_dateCreated (o r : Obj) :
    (addExtraValuesA o r).dateCreated =
      if r.dateCreated.isSome then r.dateCreated else o.dateCreated := by
  unfold addExtraValuesA
  by_cases h1 : r.id.isSome <;> by_cases h2 : r.uuid.isSome <;>
    by_cases h3 : r.dateCreated.isSome <;> by_cases h4 : r.lastUpdate.isSome <;>
    simp [h1, h2, h3, h4]

theorem addExtraValuesA_lastUpdate (o r : Obj) :
    (addExtraValuesA o r).lastUpdate =
      if r.lastUpdate.isSome then r.lastUpdate else o.lastUpdate := by
  unfold addExtraValuesA
  by_cases h1 : r.id.isSome <;> by_cases h2 : r.uuid.isSome <;>
    by_cases h3 : r.dateCreated.isSome <;> by_cases h4 : r.lastUpdate.isSome <;>
    simp [h1, h2, h3, h4]

theorem addExtraValuesB_id (o r : Obj) :
    (addExtraValuesB o r).id = if r.id.isSome then r.id else o.id := by
  unfold addExtraValuesB
  by_cases h1 : r.id.isSome <;> by_cases h3 : r.dateCreated.isSome <;>
    by_cases h4 : r.lastUpdate.isSome <;> simp [h1, h3, h4]

theorem addExtraValuesB_dateCreated (o r : Obj) :
    (addExtraValuesB o r).dateCreated =
      if r.dateCreated.isSome then r.dateCreated else o.dateCreated := by
  unfold addExtraValuesB
  by_cases h1 : r.id.isSome <;> by_cases h3 : r.dateCreated.isSome <;>
    by_cases h4 : r.lastUpdate.isSome <;> simp [h1, h3, h4]

theorem addExtraValuesB_lastUpdate (o r : Obj) :
    (addExtraValuesB o r).lastUpdate =
      if r.lastUpdate.isSome then r.lastUpdate else o.lastUpdate := by
  unfold addExtraValuesB
  by_cases h1 : r.id.isSome <;> by_cases h3 : r.dateCreated.isSome <;>
    by_cases h4 : r.lastUpdate.isSome <;> simp [h1, h3, h4]

/-- The per-entity / per-engine hooks of the abstract DAO base classes:
the abstract validation methods, the overridable conversion methods and the
engine adapter methods (which may read and extend the database state). -/
structure DaoOps where
  validateEntity : Obj → List VErr
  validateBeforeInsert : Obj → Db → List VErr
  validateBeforeUpdate : Obj → Db → List VErr
  convertBeforeSave : Obj → Obj := fun o => o
  convertAfterDbOperation : Obj → Obj := fun o => o
  insertMethod : Obj → Db → Obj × Db
  updateMethod : Obj → Db → Obj × Db
  insertManyMethod : List Obj → Db → List Obj × Db
  findOneByIdMethod : String → Db → Option Obj
  findOneMethod : String → Db → Option Obj
  findAllMethod : Db → List Obj
  findAllByIdsMethod : List String → Db → List Obj
  findOneByAttributeMethod : String → String → Db → Option Obj
  findAllByAttributeMethod : String → String → Db → List Obj

/-- Observable steps of an insert/update lifecycle, recorded in source order;
the engine steps carry the object handed to the engine adapter. -/
inductive DaoStep where
  | stepValidateEntity : DaoStep
  | stepValidateBeforeInsert : DaoStep
  | stepValidateBeforeUpdate : DaoStep
  | stepTimestamp : DaoStep
  | stepUuid : DaoStep
  | stepEngineInsert : Obj → DaoStep
  | stepEngineUpdate : Obj → DaoStep
  | stepConvertAfter : DaoStep
deriving DecidableEq, Repr

/-- `AbstractDataAccessObject.insert` of part_000 (variant A): reject any
defined id; `validateEntity`; `validateBeforeInsert`; timestamp; uuid (stored
in the `uuid` attribute); persist; convert and restore extra values.  Returns
the promise outcome, the resulting database state and the step trace. -/
def insertA (ops : DaoOps) (entityProperties : Option EntityProperties) (now : Nat)
    (fresh : String) (objectToInsert : Obj) (db : Db) :
    DaoResult Obj × Db × List DaoStep :=
  if objectToInsert.id.isSome then
    (.rejected (.msg "Object has a defined id"), db, [])
  else
    let entityErrors := ops.validateEntity objectToInsert
    if entityErrors.length = 0 then
      let validations := ops.validateBeforeInsert objectToInsert db
      if validations.length = 0 then
        let stamped := TimeStampGenerator.generateTimeStampForInsert entityProperties now
          objectToInsert
        let withUuid := UuidGenerator.assignUuid entityProperties fresh stamped
        let engineInput := addExtraValuesA (ops.convertBeforeSave withUuid) withUuid
        let resultPair := ops.insertMethod engineInput db
        let result := addExtraValuesA (ops.convertAfterDbOperation resultPair.1) resultPair.1
        (.ok result, resultPair.2,
          [.stepValidateEntity, .stepValidateBeforeInsert, .stepTimestamp, .stepUuid,
            .stepEngineInsert engineInput, .stepConvertAfter])
      else
        (.rejected (.errors validations), db, [.stepValidateEntity, .stepValidateBeforeInsert])
    else
      (.rejected (.errors entityErrors), db, [.stepValidateEntity])

/-- First id precondition of the db-engine-util base class's `insert`:
`entityProperties != null && autoGenerated === true && id != null`. -/
def idRejectCond1 (entityProperties : Option EntityProperties) (obj : Obj) : Bool :=
  match entityProperties with
  | none => false
  | some p => decide (p.autoGenerated = some true) && obj.id.isSome

/-- Second id precondition of the db-engine-util base class's `insert`:
`(entityProperties == null || autoGenerated == null || autoGenerated === false)
 && id == null`. -/
def idRejectCond2 (entityProperties : Option EntityProperties) (obj : Obj) : Bool :=
  (match entityProperties with
   | none => true
   | some p => decide (p.autoGenerated = none) || decide (p.autoGenerated = some false))
  && obj.id.isNone

/-- `AbstractDataAccessObject.insert` of the db-engine-util base class
(variant B): the id checks are keyed off `entityProperties.autoGenerated`;
the generated uuid is assigned to the `id` attribute, before timestamping;
`addExtraValues` does not restore a `uuid` attribute. -/
def insertB (ops : DaoOps) (entityProperties : Option EntityProperties) (now : Nat)
    (fresh : String) (objectToInsert : Obj) (db : Db) :
    DaoResult Obj × Db × List DaoStep :=
  if idRejectCond1 entityProperties objectToInsert then
    (.rejected (.msg "Object has a defined id"), db, [])
  else if idRejectCond2 entityProperties objectToInsert then
    (.rejected (.msg ("Object does not have an id and the dao has the attribute " ++
      "entityProperties.autoGenerated as false or undefined")), db, [])
  else
    let entityErrors := ops.validateEntity objectToInsert
    if entityErrors.length = 0 then
      let validations := ops.validateBeforeInsert objectToInsert db
      if validations.length = 0 then
        let withUuid := UuidGenerator.assignUUIDToIdAttribute entityProperties fresh
          objectToInsert
        let stamped := TimeStampGenerator.generateTimeStampForInsert entityProperties now
          withUuid
        let engineInput := addExtraValuesB (ops.convertBeforeSave stamped) stamped
        let resultPair := ops.insertMethod engineInput db
        let result := addExtraValuesB (ops.convertAfterDbOperation resultPair.1) resultPair.1
        (.ok result, resultPair.2,
          [.stepValidateEntity, .stepValidateBeforeInsert, .stepUuid, .stepTimestamp,
            .stepEngineInsert engineInput, .stepConvertAfter])
      else
        (.rejected (.errors validations), db, [.stepValidateEntity, .stepValidateBeforeInsert])
    else
      (.rejected (.errors entityErrors), db, [.stepValidateEntity])

/-- `AbstractDataAccessObject.update` of part_000 (variant A). -/
def updateA (ops : DaoOps) (entityProperties : Option EntityProperties) (now : Nat)
    (objectToUpdate : Obj) (db : Db) : DaoResult Obj × Db × List DaoStep :=
  if !(isValidId objectToUpdate.id) then
    (.rejected (.msg "Object does not have an id"), db, [])
  else
    let entityErrors := ops.validateEntity objectToUpdate
    if entityErrors.length = 0 then
      let validations := ops.validateBeforeUpdate objectToUpdate db
      if validations.length = 0 then
        let stamped := TimeStampGenerator.generateTimeStampForUpdate entityProperties now
          objectToUpdate
        let engineInput := addExtraValuesA (ops.convertBeforeSave stamped) stamped
        let resultPair := ops.updateMethod engineInput db
        let result := addExtraValuesA (ops.convertAfterDbOperation resultPair.1) resultPair.1
        (.ok result, resultPair.2,
          [.stepValidateEntity, .stepValidateBeforeUpdate, .stepTimestamp,
            .stepEngineUpdate engineInput, .stepConvertAfter])
      else
        (.rejected (.errors validations), db, [.stepValidateEntity, .stepValidateBeforeUpdate])
    else
      (.rejected (.errors entityErrors), db, [.stepValidateEntity])

/-- `AbstractDataAccessObject.update` of the db-engine-util base class
(variant B): same lifecycle, with the `isBlankString` id precondition and the
uuid-less `addExtraValues`. -/
def updateB (ops : DaoOps) (entityProperties : Option EntityProperties) (now : Nat)
    (objectToUpdate : Obj) (db : Db) : DaoResult Obj × Db × List DaoStep :=
  if isBlankString objectToUpdate.id then
    (.rejected (.msg "Object does not have an id"), db, [])
  else
    let entityErrors := ops.validateEntity objectToUpdate
    if entityErrors.length = 0 then
      let validations := ops.validateBeforeUpdate objectToUpdate db
      if validations.length = 0 then
        let stamped := TimeStampGenerator.generateTimeStampForUpdate entityProperties now
          objectToUpdate
        let engineInput := addExtraValuesB (ops.convertBeforeSave stamped) stamped
        let resultPair := ops.updateMethod engineInput db
        let result := addExtraValuesB (ops.convertAfterDbOperation resultPair.1) resultPair.1
        (.ok result, resultPair.2,
          [.stepValidateEntity, .stepValidateBeforeUpdate, .stepTimestamp,
            .stepEngineUpdate engineInput, .stepConvertAfter])
      else
        (.rejected (.errors validations), db, [.stepValidateEntity, .stepValidateBeforeUpdate])
    else
      (.rejected (.errors entityErrors), db, [.stepValidateEntity])

/-- The per-object body of `insertMany`'s second loop (variant A): validate
each object; at the first validation failure reject with those errors,
otherwise timestamp, assign the uuid and convert each object for saving. -/
def convertAllA (ops : DaoOps) (entityProperties : Option EntityProperties) (now : Nat)
    (fresh : String) : List Obj → Except (List VErr) (List Obj)
  | [] => .ok []
  | obj :: rest =>
    let entityErrors := ops.validateEntity obj
    if entityErrors.length = 0 then
      let stamped := TimeStampGenerator.generateTimeStampForInsert entityProperties now obj
      let withUuid := UuidGenerator.assignUuid entityProperties fresh stamped
      match convertAllA ops entityProperties now fresh rest with
      | .ok converted => .ok (addExtraValuesA (ops.convertBeforeSave withUuid) withUuid :: converted)
      | .error e => .error e
    else
      .error entityErrors

/-- `AbstractDataAccessObject.insertMany` of part_000 (variant A): reject if
any object has a defined id, then validate/timestamp/uuid/convert each object,
persist them through `insertManyMethod` and rehydrate every inserted record. -/
def insertManyA (ops : DaoOps) (entityProperties : Option EntityProperties) (now : Nat)
    (fresh : String) (objectsToInsert : List Obj) (db : Db) :
    DaoResult (List Obj) × Db :=
  if objectsToInsert.any (fun obj => obj.id.isSome) then
    (.rejected (.msg "Object has a defined id"), db)
  else
    match convertAllA ops entityProperties now fresh objectsToInsert with
    | .error e => (.rejected (.errors e), db)
    | .ok convertedObjectsToInsert =>
      let resultPair := ops.insertManyMethod convertedObjectsToInsert db
      (.ok (resultPair.1.map
        (fun value => addExtraValuesA (ops.convertAfterDbOperation value) value)), resultPair.2)

/-- `AbstractDataAccessObject.findOneById` of part_000: a nil query result is
resolved unchanged, otherwise the record is converted and its extra values
restored. -/
def findOneByIdA (ops : DaoOps) (i : String) (db : Db) : Option Obj :=
  match ops.findOneByIdMethod i db with
  | none => none
  | some resultQuery =>
    some (addExtraValuesA (ops.convertAfterDbOperation resultQuery) resultQuery)

/-- `AbstractDataAccessObject.findOne` of the db-engine-util base class: the
same nil guard, with the uuid-less `addExtraValues`. -/
def findOneB (ops : DaoOps) (i : String) (db : Db) : Option Obj :=
  match ops.findOneMethod i db with
  | none => none
  | some resultQuery =>
    some (addExtraValuesB (ops.convertAfterDbOperation resultQuery) resultQuery)

/-- `AbstractDataAccessObject.findAll` of part_000. -/
def findAllA (ops : DaoOps) (db : Db) : List Obj :=
  (ops.findAllMethod db).map
    (fun value => addExtraValuesA (ops.convertAfterDbOperation value) value)

/-- `AbstractDataAccessObject.findAllByIds` of part_000. -/
def findAllByIdsA (ops : DaoOps) (arrayOfIds : List String) (db : Db) : List Obj :=
  (ops.findAllByIdsMethod arrayOfIds db).map
    (fun value => addExtraValuesA (ops.convertAfterDbOperation value) value)

/-- `AbstractDataAccessObject.findOneByAttribute` of part_000 (nil guard as in
`findOneById`). -/
def findOneByAttributeA (ops : DaoOps) (attributeName : String) (value : String) (db : Db) :
    Option Obj :=
  match ops.findOneByAttributeMethod attributeName value db with
  | none => none
  | some resultQuery =>
    some (addExtraValuesA (ops.convertAfterDbOperation resultQuery) resultQuery)

/-- `AbstractDataAccessObject.findAllByAttribute` of part_000. -/
def findAllByAttributeA (ops : DaoOps) (attributeName : String) (value : String) (db : Db) :
    List Obj :=
  (ops.findAllByAttributeMethod attributeName value db).map
    (fun v => addExtraValuesA (ops.convertAfterDbOperation v) v)

/-- A stored role record as seen by the role collection's uniqueness query
(`_id` is always present on a stored document). -/
structure RoleRec where
  id : String
  name : String
deriving DecidableEq, Repr

/-- A stored account record as seen by the account collection's uniqueness
query. -/
structure AccountRec where
  id : String
  username : String
deriving DecidableEq, Repr

/-- The object handed to `RoleDaoMongoDbImpl.validateBeforeUpdate`. -/
structure RoleUpd where
  id : String
  name : String
deriving DecidableEq, Repr

/-- The object handed to `AccountDaoMongodbImpl.validateBeforeUpdate`. -/
structure AccountUpd where
  id : String
  username : String
deriving DecidableEq, Repr

/-- The duplicate-name validation error pushed by
`RoleDaoMongoDbImpl.validateBeforeUpdate`. -/
def duplicateRoleNameError (name : String) : VErr :=
  ⟨"name", "There is another role with the same name", name⟩

/-- Modelled from the spec: the duplicate-username error produced by
`AccountValidator.validateResultQueryBeforeBdOperation` (the validator module
is not under `src/`); per the spec's description of the per-entity uniqueness
checks it reports a duplicate-username validation error exactly when the
filtered query returned at least one record. -/
def duplicateUsernameError (username : String) : VErr :=
  ⟨"username", "There is another account with the same username", username⟩

/-- `RoleDaoMongoDbImpl.validateBeforeUpdate`: the mongo query
`{$and: [{name: {$eq: name}}, {_id: {$ne: id}}]}` evaluated over the role
collection; a non-empty result yields the duplicate-name error, otherwise the
parent-role validation (`validateParentRole`, a hook of the `RoleDao` base
class that is not under `src/`, kept abstract here) decides. -/
def roleValidateBeforeUpdate (validateParentRole : RoleUpd → List VErr)
    (db : List RoleRec) (objectToUpdate : RoleUpd) : List VErr :=
  let result := db.filter
    (fun r => decide (r.name = objectToUpdate.name) && decide (r.id ≠ objectToUpdate.id))
  if result.length > 0 then
    [duplicateRoleNameError objectToUpdate.name]
  else
    validateParentRole objectToUpdate

/-- Modelled from the spec:
`AccountValidator.validateResultQueryBeforeBdOperation` (not under `src/`):
reports the duplicate-username error exactly when the filtered query result is
non-empty. -/
def accountValidateResultQuery (result : List AccountRec) (objectToUpdate : AccountUpd) :
    List VErr :=
  if result.length > 0 then [duplicateUsernameError objectToUpdate.username] else []

/-- `AccountDaoMongodbImpl.validateBeforeUpdate`: the mongo query
`{$and: [{_id: {$ne: id}}, {username: {$eq: username}}]}` over the account
collection, fed to the account validator. -/
def accountValidateBeforeUpdate (db : List AccountRec) (objectToUpdate : AccountUpd) :
    List VErr :=
  let result := db.filter
    (fun r => decide (r.id ≠ objectToUpdate.id) && decide (r.username = objectToUpdate.username))
  accountValidateResultQuery result objectToUpdate

/-- A JavaScript value appearing as a permission bit's `id` in the input to
`RoleService`: either a string or some non-string value. -/
inductive JsVal where
  | str : String → JsVal
  | other : JsVal
deriving DecidableEq, Repr

/-- `_.isString`. -/
def isString : JsVal → Bool
  | .str _ => true
  | .other => false

/-- The string carried by a `JsVal` (the ids reaching the DAO calls are all
strings, enforced by `RoleService.validate`). -/
def jsStr : JsVal → String
  | .str s => s
  | .other => ""

/-- An element of the `permissionBits` array passed to `RoleService`. -/
structure PermissionBitRef where
  id : JsVal
deriving DecidableEq, Repr

/-- `RoleEntity` as constructed by `RoleService` (plus the `id` and
`dateCreated` attributes that `update` copies over). -/
structure RoleEntity where
  name : String
  description : String
  enabled : Bool
  isRoot : Bool
  idParentRole : Option String
  id : Option String := none
  dateCreated : Option Nat := none
deriving DecidableEq, Repr

/-- `RolePermissionBitEntity`: one role/permission-bit association. -/
structure RolePermissionBitEntity where
  idRole : Option String
  idPermissionBit : String
deriving DecidableEq, Repr

/-- A stored permission bit (only the attributes `RoleService` reads). -/
structure PermissionBitEntity where
  id : String
  idAuthContext : String
deriving DecidableEq, Repr

/-- A stored authorization context (only the attribute `RoleService` reads). -/
structure AuthContextEntity where
  id : String
deriving DecidableEq, Repr

/-- A permission bit with its populated `authContext` attribute, as returned
by `RoleService.populateData`. -/
structure PermissionBitPopulated where
  bit : PermissionBitEntity
  authContext : Option AuthContextEntity
deriving DecidableEq, Repr

/-- The untyped `object` argument of `RoleService.insert`/`update`. -/
structure RoleInput where
  name : String := ""
  description : String := ""
  enabled : Bool := true
  isRoot : Bool := false
  idParentRole : Option String := none
  id : Option String := none
  dateCreated : Option Nat := none
  permissionBits : Option (List PermissionBitRef) := none
deriving DecidableEq, Repr

/-- The value `RoleService.insert`/`update` resolve with: the inserted/updated
role together with its populated permission bits. -/
structure RoleServiceResult where
  role : RoleEntity
  permissionBits : List PermissionBitPopulated
deriving DecidableEq, Repr

/-- The external DAO calls `RoleService` makes (everything behind
`Persistence.*` except the role-permission-bit store, which is modelled
concretely as a list state). -/
structure RoleServiceDeps where
  validateRole : RoleEntity → List VErr
  roleDaoInsert : RoleEntity → DaoResult RoleEntity
  roleDaoUpdate : RoleEntity → DaoResult RoleEntity
  permissionBitFindAllByIds : List String → List PermissionBitEntity
  authContextFindAllByIds : List String → List AuthContextEntity

/-- The arguments `RoleService` hands to the role-permission-bit DAO, recorded
so that theorems can speak about which associations are inserted or deleted. -/
structure RoleServiceEffects where
  insertManyArg : Option (List RolePermissionBitEntity) := none
  deleteAllByIdRoleArg : Option (Option String) := none
deriving DecidableEq, Repr

/-- `_.uniq`: keep the first occurrence of every element (helper with the
already-seen accumulator). -/
def lodashUniqAux {α : Type} [DecidableEq α] (seen : List α) : List α → List α
  | [] => []
  | x :: xs =>
    if x ∈ seen then lodashUniqAux seen xs
    else x :: lodashUniqAux (seen ++ [x]) xs

/-- `_.uniq`: keep the first occurrence of every element. -/
def lodashUniq {α : Type} [DecidableEq α] (l : List α) : List α :=
  lodashUniqAux [] l

theorem mem_lodashUniqAux {α : Type} [DecidableEq α] (a : α) (l : List α) :
    ∀ seen, a ∈ lodashUniqAux seen l ↔ a ∈ l ∧ a ∉ seen := by
  induction l with
  | nil => intro seen; simp [lodashUniqAux]
  | cons x xs ih =>
    intro seen
    by_cases hx : x ∈ seen
    · rw [lodashUniqAux, if_pos hx, ih]
      constructor
      · rintro ⟨h1, h2⟩; exact ⟨List.mem_cons_of_mem _ h1, h2⟩
      · rintro ⟨h1, h2⟩
        rcases List.mem_cons.mp h1 with h | h
        · exact absurd (h ▸ hx) h2
        · exact ⟨h, h2⟩
    · rw [lodashUniqAux, if_neg hx]
      by_cases hax : a = x
      · subst hax
        simp [hx]
      · rw [List.mem_cons, List.mem_cons, ih]
        simp only [hax, false_or, List.mem_append, List.mem_singleton, or_iff_left hax]
        tauto

theorem mem_lodashUniq {α : Type} [DecidableEq α] (a : α) (l : List α) :
    a ∈ lodashUniq l ↔ a ∈ l := by
  rw [lodashUniq, mem_lodashUniqAux]
  simp

theorem nodup_lodashUniqAux {α : Type} [DecidableEq α] (l : List α) :
    ∀ seen, (lodashUniqAux seen l).Nodup := by
  induction l with
  | nil => intro seen; simp [lodashUniqAux]
  | cons x xs ih =>
    intro seen
    by_cases hx : x ∈ seen
    · rw [lodashUniqAux, if_pos hx]; exact ih seen
    · rw [lodashUniqAux, if_neg hx]
      refine List.nodup_cons.mpr ⟨?_, ih (seen ++ [x])⟩
      intro hmem
      have := (mem_lodashUniqAux x xs (seen ++ [x])).mp hmem
      exact this.2 (List.mem_append.mpr (Or.inr (List.mem_singleton.mpr rfl)))

theorem nodup_lodashUniq {α : Type} [DecidableEq α] (l : List α) :
    (lodashUniq l).Nodup :=
  nodup_lodashUniqAux l []

theorem toFinset_lodashUniq {α : Type} [DecidableEq α] (l : List α) :
    (lodashUniq l).toFinset = l.toFinset := by
  ext a
  simp [List.mem_toFinset, mem_lodashUniq]

theorem length_lodashUniq {α : Type} [DecidableEq α] (l : List α) :
    (lodashUniq l).length = l.toFinset.card := by
  rw [← toFinset_lodashUniq, List.toFinset_card_of_nodup (nodup_lodashUniq l)]

/-- The `new RoleEntity(object.name, object.description, object.enabled,
object.isRoot, object.idParentRole)` constructor call made by
`RoleService.insert`/`update`/`validate`. -/
def mkRoleEntityFrom (object : RoleInput) : RoleEntity :=
  { name := object.name
    description := object.description
    enabled := object.enabled
    isRoot := object.isRoot
    idParentRole := object.idParentRole }

/-- The single early-rejection error of `RoleService.validate`:
`new ValidationError(ROLE_PERMISSION_BIT, ROLE_PERMISSION_BITS_EMPTY, "")`. -/
def rolePermissionBitsEmptyError : VErr :=
  ⟨"role.permissionBit", "permissionBits is not an array or is empty", ""⟩

/-- `new ValidationError(ROLE_PERMISSION_BIT, PERMISSION_BITS_INVALID, "")`. -/
def permissionBitsInvalidError : VErr :=
  ⟨"role.permissionBit", "The parameters does not have a valid permission bits data", ""⟩

/-- `new ValidationError(ROLE_PERMISSION_BIT, PERMISSION_BIT_NOT_IN_DATABASE, "")`. -/
def permissionBitNotInDatabaseError : VErr :=
  ⟨"role.permissionBit", "Some permission bit ids does not exits in the database", ""⟩

/-- `RoleService.validatePermissionBitsIds`: every id must resolve to a
permission bit in the database (compared by result length, as in the source). -/
def RoleService.validatePermissionBitsIds (deps : RoleServiceDeps) (ids : List String) :
    Option (List VErr) :=
  if (deps.permissionBitFindAllByIds ids).length ≠ ids.length then
    some [permissionBitNotInDatabaseError]
  else
    none

/-- `RoleService.validate`: role-field validation via `RoleValidator`, the
early rejection when `permissionBits` is not an array or is empty, the
non-string id check, and the database existence check on the deduplicated
ids.  `some errs` models a rejected promise carrying `errs`; `none` models a
resolved promise. -/
def RoleService.validate (deps : RoleServiceDeps) (object : RoleInput) :
    Option (List VErr) :=
  let role := mkRoleEntityFrom object
  let errors := deps.validateRole role
  match object.permissionBits with
  | none => some [rolePermissionBitsEmptyError]
  | some permissionBits =>
    if permissionBits.length = 0 then
      some [rolePermissionBitsEmptyError]
    else
      let ids := permissionBits.map (fun o => o.id)
      let rejected := ids.filter (fun o => !(isString o))
      let errors2 := if rejected.length > 0 then errors ++ [permissionBitsInvalidError]
        else errors
      if errors2.length > 0 then
        some errors2
      else
        let idPermissionBits := lodashUniq ids
        RoleService.validatePermissionBitsIds deps (idPermissionBits.map jsStr)

/-- `RoleService.populateData`: look up the permission bits by id, then attach
to each the first authorization context whose id matches its `idAuthContext`
(lodash `_.find`). -/
def RoleService.populateData (deps : RoleServiceDeps) (permissionBitIds : List String) :
    List PermissionBitPopulated :=
  let permissionBits := deps.permissionBitFindAllByIds permissionBitIds
  let authContextIds := lodashUniq (permissionBits.map (fun b => b.idAuthContext))
  let resultAuthContexts := deps.authContextFindAllByIds authContextIds
  permissionBits.map (fun bit =>
    ⟨bit, resultAuthContexts.find? (fun o => o.id = bit.idAuthContext)⟩)

/-- `RoleService.insert`: validate, insert the role, build one association per
deduplicated permission-bit id, persist them through the role-permission-bit
DAO (modelled as appending to the association list state) and resolve with the
role plus its populated permission bits.  Also returns the new association
state and the recorded DAO-call arguments. -/
def RoleService.insert (deps : RoleServiceDeps) (st : List RolePermissionBitEntity)
    (object : RoleInput) :
    DaoResult RoleServiceResult × List RolePermissionBitEntity × RoleServiceEffects :=
  match RoleService.validate deps object with
  | some errs => (.rejected (.errors errs), st, {})
  | none =>
    let role := mkRoleEntityFrom object
    match deps.roleDaoInsert role with
    | .rejected r => (.rejected r, st, {})
    | .ok insertedRole =>
      let idsPermissionBits :=
        lodashUniq (((object.permissionBits.getD []).map (fun o => o.id)))
      let associationsToInsert := idsPermissionBits.map
        (fun i => RolePermissionBitEntity.mk insertedRole.id (jsStr i))
      let insertedBits := associationsToInsert
      let st2 := st ++ associationsToInsert
      let permissionBitIds := insertedBits.map (fun v => v.idPermissionBit)
      let resultData := RoleService.populateData deps permissionBitIds
      (.ok ⟨insertedRole, resultData⟩, st2, { insertManyArg := some associationsToInsert })

/-- `RoleService.update`: validate, update the role (carrying over the input's
`dateCreated` and `id`), delete **all** associations of the role
(`deleteAllByIdRole`, modelled by filtering the association state), rebuild
one association per deduplicated permission-bit id of the new list, persist
them and resolve with the updated role plus its populated permission bits. -/
def RoleService.update (deps : RoleServiceDeps) (st : List RolePermissionBitEntity)
    (object : RoleInput) :
    DaoResult RoleServiceResult × List RolePermissionBitEntity × RoleServiceEffects :=
  match RoleService.validate deps object with
  | some errs => (.rejected (.errors errs), st, {})
  | none =>
    let role := { mkRoleEntityFrom object with
      dateCreated := object.dateCreated
      id := object.id }
    match deps.roleDaoUpdate role with
    | .rejected r => (.rejected r, st, {})
    | .ok updatedRole =>
      let st1 := st.filter (fun a => decide (a.idRole ≠ object.id))
      let idsPermissionBits :=
        lodashUniq (((object.permissionBits.getD []).map (fun o => o.id)))
      let associationsToInsert := idsPermissionBits.map
        (fun i => RolePermissionBitEntity.mk updatedRole.id (jsStr i))
      let insertedBits := associationsToInsert
      let st2 := st1 ++ associationsToInsert
      let idPermissionBits := insertedBits.map (fun v => v.idPermissionBit)
      let resultRecords := RoleService.populateData deps idPermissionBits
      (.ok ⟨updatedRole, resultRecords⟩, st2,
        { insertManyArg := some associationsToInsert
          deleteAllByIdRoleArg := some object.id })

/-- The object variant-A `insert` hands to the engine adapter on its success
path (timestamped, uuid assigned, converted, extra values restored). -/
def insertEngineInputA (ops : DaoOps) (props : Option EntityProperties) (now : Nat)
    (fresh : String) (obj : Obj) : Obj :=
  let stamped := TimeStampGenerator.generateTimeStampForInsert props now obj
  let withUuid := UuidGenerator.assignUuid props fresh stamped
  addExtraValuesA (ops.convertBeforeSave withUuid) withUuid

/-- The engine adapter's answer (record and new database) on variant A's
insert success path. -/
def insertEnginePairA (ops : DaoOps) (props : Option EntityProperties) (now : Nat)
    (fresh : String) (obj : Obj) (db : Db) : Obj × Db :=
  ops.insertMethod (insertEngineInputA ops props now fresh obj) db

/-- The object variant-A `insert` resolves with on its success path. -/
def insertResultA (ops : DaoOps) (props : Option EntityProperties) (now : Nat)
    (fresh : String) (obj : Obj) (db : Db) : Obj :=
  addExtraValuesA (ops.convertAfterDbOperation (insertEnginePairA ops props now fresh obj db).1)
    (insertEnginePairA ops props now fresh obj db).1

/-- The object variant-B `insert` hands to the engine adapter on its success
path (uuid assigned to `id`, then timestamped, converted, extra values
restored). -/
def insertEngineInputB (ops : DaoOps) (props : Option EntityProperties) (now : Nat)
    (fresh : String) (obj : Obj) : Obj :=
  let withUuid := UuidGenerator.assignUUIDToIdAttribute props fresh obj
  let stamped := TimeStampGenerator.generateTimeStampForInsert props now withUuid
  addExtraValuesB (ops.convertBeforeSave stamped) stamped

/-- The engine adapter's answer on variant B's insert success path. -/
def insertEnginePairB (ops : DaoOps) (props : Option EntityProperties) (now : Nat)
    (fresh : String) (obj : Obj) (db : Db) : Obj × Db :=
  ops.insertMethod (insertEngineInputB ops props now fresh obj) db

/-- The object variant-B `insert` resolves with on its success path. -/
def insertResultB (ops : DaoOps) (props : Option EntityProperties) (now : Nat)
    (fresh : String) (obj : Obj) (db : Db) : Obj :=
  addExtraValuesB (ops.convertAfterDbOperation (insertEnginePairB ops props now fresh obj db).1)
    (insertEnginePairB ops props now fresh obj db).1

/-- The object variant-A `update` hands to the engine adapter on its success
path. -/
def updateEngineInputA (ops : DaoOps) (props : Option EntityProperties) (now : Nat)
    (obj : Obj) : Obj :=
  let stamped := TimeStampGenerator.generateTimeStampForUpdate props now obj
  addExtraValuesA (ops.convertBeforeSave stamped) stamped

/-- The engine adapter's answer on variant A's update success path. -/
def updateEnginePairA (ops : DaoOps) (props : Option EntityProperties) (now : Nat)
    (obj : Obj) (db : Db) : Obj × Db :=
  ops.updateMethod (updateEngineInputA ops props now obj) db

/-- The object variant-A `update` resolves with on its success path. -/
def updateResultA (ops : DaoOps) (props : Option EntityProperties) (now : Nat)
    (obj : Obj) (db : Db) : Obj :=
  addExtraValuesA (ops.convertAfterDbOperation (updateEnginePairA ops props now obj db).1)
    (updateEnginePairA ops props now obj db).1

/-- The object variant-B `update` hands to the engine adapter on its success
path. -/
def updateEngineInputB (ops : DaoOps) (props : Option EntityProperties) (now : Nat)
    (obj : Obj) : Obj :=
  let stamped := TimeStampGenerator.generateTimeStampForUpdate props now obj
  addExtraValuesB (ops.convertBeforeSave stamped) stamped

/-- The engine adapter's answer on variant B's update success path. -/
def updateEnginePairB (ops : DaoOps) (props : Option EntityProperties) (now : Nat)
    (obj : Obj) (db : Db) : Obj × Db :=
  ops.updateMethod (updateEngineInputB ops props now obj) db

/-- The object variant-B `update` resolves with on its success path. -/
def updateResultB (ops : DaoOps) (props : Option EntityProperties) (now : Nat)
    (obj : Obj) (db : Db) : Obj :=
  addExtraValuesB (ops.convertAfterDbOperation (updateEnginePairB ops props now obj db).1)
    (updateEnginePairB ops props now obj db).1

/-- The raw record `r` and the rehydrated object `out` agree on every
identity/timestamp attribute that is non-nil on `r`. -/
def preservesIdentity (raw out : Obj) : Prop :=
  (raw.id.isSome → out.id = raw.id) ∧
  (raw.uuid.isSome → out.uuid = raw.uuid) ∧
  (raw.dateCreated.isSome → out.dateCreated = raw.dateCreated) ∧
  (raw.lastUpdate.isSome → out.lastUpdate = raw.lastUpdate)

theorem preservesIdentity_addExtraValuesA (o r : Obj) :
    preservesIdentity r (addExtraValuesA o r) := by
  refine ⟨?_, ?_, ?_, ?_⟩ <;> intro h <;>
    simp [addExtraValuesA_id, addExtraValuesA_uuid, addExtraValuesA_dateCreated,
      addExtraValuesA_lastUpdate, h]

theorem forall2_map_of_rel {α : Type} (R : α → α → Prop) (f : α → α)
    (h : ∀ a, R a (f a)) (l : List α) : List.Forall₂ R l (l.map f) := by
  induction l with
  | nil => exact List.Forall₂.nil
  | cons x xs ih => exact List.Forall₂.cons (h x) ih

/-- A concrete engine/validator assembly whose validations always pass and
whose engine echoes its input (appending inserted records to the store). -/
def opsEchoW : DaoOps :=
  { validateEntity := fun _ => []
    validateBeforeInsert := fun _ _ => []
    validateBeforeUpdate := fun _ _ => []
    insertMethod := fun o d => (o, d ++ [o])
    updateMethod := fun o d => (o, d)
    insertManyMethod := fun l d => (l, d ++ l)
    findOneByIdMethod := fun _ d => d.head?
    findOneMethod := fun _ d => d.head?
    findAllMethod := fun d => d
    findAllByIdsMethod := fun _ d => d
    findOneByAttributeMethod := fun _ _ d => d.head?
    findAllByAttributeMethod := fun _ _ d => d }

/-- A sample shape-validation error. -/
def errW : VErr := ⟨"name", "name is empty", ""⟩

/-- Like `opsEchoW` but with a failing entity validation. -/
def opsFailW : DaoOps := { opsEchoW with validateEntity := fun _ => [errW] }

/-- A raw database record with all identity/timestamp attributes set. -/
def rawW : Obj :=
  { id := some "id1", uuid := some "uuid1", dateCreated := some 3, lastUpdate := some 4 }

/-- Like `opsEchoW` but whose conversion drops every attribute and whose
engine lookup finds `rawW`. -/
def opsDropW : DaoOps :=
  { opsEchoW with
    convertAfterDbOperation := fun _ => {}
    findOneByIdMethod := fun _ _ => some rawW }

/-- Like `opsEchoW` but whose engine lookups find nothing. -/
def opsNoneW : DaoOps :=
  { opsEchoW with
    findOneByIdMethod := fun _ _ => none
    findOneMethod := fun _ _ => none }

/-- An object that already carries an id. -/
def objIdW : Obj := { id := some "existing" }

/-- Entity properties with auto-generation disabled. -/
def propsOffW : EntityProperties := { autoGenerated := some false, timeStamp := some false }

/-- Entity properties with auto-generation and timestamping enabled. -/
def propsOnW : EntityProperties := { autoGenerated := some true, timeStamp := some true }

/-- Concrete `RoleService` dependencies: role-field validation passes, the
role DAO assigns id `role1` on insert and echoes on update, and every
permission-bit id resolves to a stored bit under auth context `ac1`. -/
def depsW : RoleServiceDeps :=
  { validateRole := fun _ => []
    roleDaoInsert := fun r => .ok { r with id := some "role1" }
    roleDaoUpdate := fun r => .ok r
    permissionBitFindAllByIds := fun ids => ids.map (fun s => ⟨s, "ac1"⟩)
    authContextFindAllByIds := fun ids => ids.map (fun s => ⟨s⟩) }

/-- Like `depsW` but with failing role-field validation. -/
def depsErrW : RoleServiceDeps := { depsW with validateRole := fun _ => [errW] }

/-- Pre-state for the role-association scenarios: role `role1` is already
associated with permission bit `p1`. -/
def assocStW : List RolePermissionBitEntity := [⟨some "role1", "p1"⟩]

/-- An update input that keeps permission bit `p1` in the new list. -/
def roleUpdInputW : RoleInput :=
  { id := some "role1", name := "admin", permissionBits := some [⟨.str "p1"⟩] }

/-- An insert input whose permission-bit list contains a duplicated id. -/
def roleInsInputW : RoleInput :=
  { name := "admin2", permissionBits := some [⟨.str "p1"⟩, ⟨.str "p2"⟩, ⟨.str "p1"⟩] }

/-- The associations `RoleService` builds for a role id from a
permission-bits list: one per first occurrence of each distinct id. -/
def roleAssociationsFor (insertedRoleId : Option String) (pbs : List PermissionBitRef) :
    List RolePermissionBitEntity :=
  (lodashUniq (pbs.map (fun o => o.id))).map
    (fun i => RolePermissionBitEntity.mk insertedRoleId (jsStr i))

/-- C9: for every id for which the underlying engine query finds no record,
`findOneById` (variant A) and `findOne` (variant B) resolve with the nil
result unchanged — the conversion and value-restoring steps are skipped, so
the caller receives the nil value rather than an error from dereferencing a
missing record. -/
theorem C9_nil_query_resolves_nil (ops : DaoOps) (i : String) (db : Db) :
    (ops.findOneByIdMethod i db = none → findOneByIdA ops i db = none) ∧
    (ops.findOneMethod i db = none → findOneB ops i db = none) := by
  constructor
  · intro h; rw [findOneByIdA, h]
  · intro h; rw [findOneB, h]

theorem C9_nil_query_resolves_nil_witness :
    findOneByIdA opsNoneW "missing" [] = none ∧ findOneB opsNoneW "missing" [] = none :=
  ⟨(C9_nil_query_resolves_nil opsNoneW "missing" []).1 rfl,
   (C9_nil_query_resolves_nil opsNoneW "missing" []).2 rfl⟩

/-- C10: whenever the input's `permissionBits` attribute is not an array
(`none`) or is an empty array, both `RoleService.insert` and
`RoleService.update` reject with exactly the single ValidationError carrying
the message "permissionBits is not an array or is empty", leave the
association store untouched and record no DAO calls — whatever role-field
errors `RoleValidator` collected (the `deps` are universally quantified, so
this holds in particular when `validateRole` reports errors, which the early
rejection discards). -/
theorem C10_permission_bits_empty_early_reject (deps : RoleServiceDeps)
    (st : List RolePermissionBitEntity) (object : RoleInput)
    (h : object.permissionBits = none ∨ object.permissionBits = some []) :
    (RoleService.insert deps st object).1 =
      .rejected (.errors [rolePermissionBitsEmptyError]) ∧
    (RoleService.update deps st object).1 =
      .rejected (.errors [rolePermissionBitsEmptyError]) ∧
    (RoleService.insert deps st object).2.1 = st ∧
    (RoleService.update deps st object).2.1 = st ∧
    (RoleService.insert deps st object).2.2 = {} ∧
    (RoleService.update deps st object).2.2 = {} := by
  have hv : RoleService.validate deps object = some [rolePermissionBitsEmptyError] := by
    rcases h with h | h <;> simp [RoleService.validate, h]
  refine ⟨?_, ?_, ?_, ?_, ?_, ?_⟩ <;> simp [RoleService.insert, RoleService.update, hv]

theorem C10_permission_bits_empty_early_reject_witness :
    (RoleService.insert depsErrW [] { permissionBits := none }).1 =
      .rejected (.errors [rolePermissionBitsEmptyError]) ∧
    (RoleService.update depsErrW [] { permissionBits := some [] }).1 =
      .rejected (.errors [rolePermissionBitsEmptyError]) :=
  ⟨(C10_permission_bits_empty_early_reject depsErrW [] { permissionBits := none }
      (Or.inl rfl)).1,
   (C10_permission_bits_empty_early_reject depsErrW [] { permissionBits := some [] }
      (Or.inr rfl)).2.1⟩

/-- C4: the `validateBeforeUpdate` uniqueness filters exclude the record being
updated itself.  For the role DAO (given that the abstract parent-role hook
never emits the duplicate-name error) the duplicate-name error is reported iff
some stored record with a different id carries the same name; the account DAO
behaves the same for usernames; and in particular an update that keeps a
record's own unique value unchanged produces no uniqueness error. -/
theorem C4_validateBeforeUpdate_excludes_self
    (validateParentRole : RoleUpd → List VErr)
    (hpr : ∀ o : RoleUpd, duplicateRoleNameError o.name ∉ validateParentRole o)
    (db : List RoleRec) (obj : RoleUpd) (adb : List AccountRec) (aobj : AccountUpd) :
    (duplicateRoleNameError obj.name ∈ roleValidateBeforeUpdate validateParentRole db obj ↔
      ∃ r ∈ db, r.id ≠ obj.id ∧ r.name = obj.name) ∧
    (duplicateUsernameError aobj.username ∈ accountValidateBeforeUpdate adb aobj ↔
      ∃ r ∈ adb, r.id ≠ aobj.id ∧ r.username = aobj.username) ∧
    ((∀ r ∈ db, r.name = obj.name → r.id = obj.id) →
      duplicateRoleNameError obj.name ∉ roleValidateBeforeUpdate validateParentRole db obj) := by
  have hrole : duplicateRoleNameError obj.name ∈
        roleValidateBeforeUpdate validateParentRole db obj ↔
      ∃ r ∈ db, r.id ≠ obj.id ∧ r.name = obj.name := by
    rw [roleValidateBeforeUpdate]
    by_cases hdup : ∃ r ∈ db, r.id ≠ obj.id ∧ r.name = obj.name
    · obtain ⟨r, hr, hne, hnm⟩ := hdup
      have hmem : r ∈ db.filter
          (fun r => decide (r.name = obj.name) && decide (r.id ≠ obj.id)) := by
        rw [List.mem_filter]
        exact ⟨hr, by simp [hnm, hne]⟩
      have hlen : 0 < (db.filter
          (fun r => decide (r.name = obj.name) && decide (r.id ≠ obj.id))).length :=
        List.length_pos.mpr (List.ne_nil_of_mem hmem)
      simp only [hlen, if_pos]
      simp only [List.mem_singleton, true_iff]
      exact ⟨r, hr, hne, hnm⟩
    · have hfil : db.filter
          (fun r => decide (r.name = obj.name) && decide (r.id ≠ obj.id)) = [] := by
        rw [List.filter_eq_nil_iff]
        intro r hr hcond
        simp only [Bool.and_eq_true, decide_eq_true_eq] at hcond
        exact hdup ⟨r, hr, hcond.2, hcond.1⟩
      simp only [hfil, List.length_nil, lt_irrefl, if_neg, not_false_iff]
      simp only [hdup, iff_false]
      exact hpr obj
  have hacct : duplicateUsernameError aobj.username ∈ accountValidateBeforeUpdate adb aobj ↔
      ∃ r ∈ adb, r.id ≠ aobj.id ∧ r.username = aobj.username := by
    rw [accountValidateBeforeUpdate, accountValidateResultQuery]
    by_cases hdup : ∃ r ∈ adb, r.id ≠ aobj.id ∧ r.username = aobj.username
    · obtain ⟨r, hr, hne, hnm⟩ := hdup
      have hmem : r ∈ adb.filter
          (fun r => decide (r.id ≠ aobj.id) && decide (r.username = aobj.username)) := by
        rw [List.mem_filter]
        exact ⟨hr, by simp [hnm, hne]⟩
      have hlen : 0 < (adb.filter
          (fun r => decide (r.id ≠ aobj.id) && decide (r.username = aobj.username))).length :=
        List.length_pos.mpr (List.ne_nil_of_mem hmem)
      simp only [hlen, if_pos]
      simp only [List.mem_singleton, true_iff]
      exact ⟨r, hr, hne, hnm⟩
    · have hfil : adb.filter
          (fun r => decide (r.id ≠ aobj.id) && decide (r.username = aobj.username)) = [] := by
        rw [List.filter_eq_nil_iff]
        intro r hr hcond
        simp only [Bool.and_eq_true, decide_eq_true_eq] at hcond
        exact hdup ⟨r, hr, hcond.1, hcond.2⟩
      simp only [hfil, List.length_nil, lt_irrefl, if_neg, not_false_iff]
      simp only [hdup, iff_false]
      simp
  refine ⟨hrole, hacct, ?_⟩
  intro hown
  rw [hrole]
  rintro ⟨r, hr, hne, hnm⟩
  exact hne (hown r hr hnm)

theorem C4_validateBeforeUpdate_excludes_self_witness :
    duplicateRoleNameError "admin" ∈
      roleValidateBeforeUpdate (fun _ => []) [⟨"1", "admin"⟩] ⟨"2", "admin"⟩ ∧
    duplicateUsernameError "bob" ∉ accountValidateBeforeUpdate [⟨"7", "bob"⟩] ⟨"7", "bob"⟩ := by
  have h := C4_validateBeforeUpdate_excludes_self (fun _ => [])
    (by intro o; simp) [⟨"1", "admin"⟩] ⟨"2", "admin"⟩ [⟨"7", "bob"⟩] ⟨"7", "bob"⟩
  refine ⟨h.1.mpr ⟨⟨"1", "admin"⟩, by simp, by decide, rfl⟩, ?_⟩
  rw [h.2.1]
  rintro ⟨r, hr, hne, hnm⟩
  rw [List.mem_singleton] at hr
  subst hr
  exact hne rfl

/-- C1: for every entity object passed to the abstract DAO's insert (one that
reaches the lifecycle, i.e. passes the id precondition), the steps run in the
order validateEntity → validateBeforeInsert → timestamp/uuid assignment →
engine insertMethod → convertAfterDbOperation with extra-value restoration
(witnessed by the recorded step trace); and whenever a validation step returns
a non-empty error list the promise rejects with exactly those errors, the
database is untouched and no later step — in particular the engine
insertMethod — runs.  Stated for the part_000 base class (first three
conjuncts) and for the db-engine-util base class (last three). -/
theorem C1_insert_lifecycle_order (ops : DaoOps) (props : Option EntityProperties)
    (now : Nat) (fresh : String) (obj : Obj) (db : Db) (hid : obj.id = none)
    (hc1 : idRejectCond1 props obj = false) (hc2 : idRejectCond2 props obj = false) :
    (ops.validateEntity obj ≠ [] →
      insertA ops props now fresh obj db =
        (.rejected (.errors (ops.validateEntity obj)), db, [DaoStep.stepValidateEntity])) ∧
    (ops.validateEntity obj = [] → ops.validateBeforeInsert obj db ≠ [] →
      insertA ops props now fresh obj db =
        (.rejected (.errors (ops.validateBeforeInsert obj db)), db,
          [DaoStep.stepValidateEntity, DaoStep.stepValidateBeforeInsert])) ∧
    (ops.validateEntity obj = [] → ops.validateBeforeInsert obj db = [] →
      insertA ops props now fresh obj db =
        (.ok (insertResultA ops props now fresh obj db),
          (insertEnginePairA ops props now fresh obj db).2,
          [DaoStep.stepValidateEntity, DaoStep.stepValidateBeforeInsert,
            DaoStep.stepTimestamp, DaoStep.stepUuid,
            DaoStep.stepEngineInsert (insertEngineInputA ops props now fresh obj),
            DaoStep.stepConvertAfter])) ∧
    (ops.validateEntity obj ≠ [] →
      insertB ops props now fresh obj db =
        (.rejected (.errors (ops.validateEntity obj)), db, [DaoStep.stepValidateEntity])) ∧
    (ops.validateEntity obj = [] → ops.validateBeforeInsert obj db ≠ [] →
      insertB ops props now fresh obj db =
        (.rejected (.errors (ops.validateBeforeInsert obj db)), db,
          [DaoStep.stepValidateEntity, DaoStep.stepValidateBeforeInsert])) ∧
    (ops.validateEntity obj = [] → ops.validateBeforeInsert obj db = [] →
      insertB ops props now fresh obj db =
        (.ok (insertResultB ops props now fresh obj db),
          (insertEnginePairB ops props now fresh obj db).2,
          [DaoStep.stepValidateEntity, DaoStep.stepValidateBeforeInsert,
            DaoStep.stepUuid, DaoStep.stepTimestamp,
            DaoStep.stepEngineInsert (insertEngineInputB ops props now fresh obj),
            DaoStep.stepConvertAfter])) := by
  refine ⟨?_, ?_, ?_, ?_, ?_, ?_⟩
  · intro he
    simp [insertA, hid, List.length_eq_zero, he]
  · intro he hv
    simp [insertA, hid, List.length_eq_zero, he, hv]
  · intro he hv
    simp [insertA, hid, List.length_eq_zero, he, hv, insertResultA, insertEnginePairA,
      insertEngineInputA]
  · intro he
    simp [insertB, hc1, hc2, List.length_eq_zero, he]
  · intro he hv
    simp [insertB, hc1, hc2, List.length_eq_zero, he, hv]
  · intro he hv
    simp [insertB, hc1, hc2, List.length_eq_zero, he, hv, insertResultB, insertEnginePairB,
      insertEngineInputB]

theorem C1_insert_lifecycle_order_witness :
    insertA opsFailW (some propsOnW) 0 "u" {} [] =
      (.rejected (.errors [errW]), [], [DaoStep.stepValidateEntity]) ∧
    insertB opsFailW (some propsOnW) 0 "u" {} [] =
      (.rejected (.errors [errW]), [], [DaoStep.stepValidateEntity]) := by
  have h := C1_insert_lifecycle_order opsFailW (some propsOnW) 0 "u" {} [] rfl
    (by decide) (by decide)
  exact ⟨h.1 (by decide), h.2.2.2.1 (by decide)⟩

/-- C5 (counterexample): the claim "for every object passed to insert whose id
attribute is already set, the promise rejects with 'Object has a defined id'
and nothing is persisted" fails on the db-engine-util base class when the
DAO's auto-generation flag is off: with `entityProperties.autoGenerated =
false` and an object whose id is `"existing"`, insert does not reject and the
engine persists a record. -/
theorem C5_counterexample :
    (insertB opsEchoW (some propsOffW) 0 "u" objIdW []).1 ≠
      DaoResult.rejected (.msg "Object has a defined id") ∧
    (insertB opsEchoW (some propsOffW) 0 "u" objIdW []).2.1 ≠ ([] : Db) := by
  refine ⟨?_, ?_⟩ <;> decide

/-- C5 (amended): id handling of the two base classes.  The part_000 DAO
rejects any object with a non-null id with 'Object has a defined id' and
leaves the database untouched.  The db-engine-util DAO rejects a defined id
this way exactly when auto-generation is enabled, instead rejects an object
*without* an id when auto-generation is disabled or undefined, and — when
auto-generation is enabled and the object has no id — assigns the generated
uuid to the id attribute of the object handed to the engine, before
persisting. -/
theorem C5_id_generation (ops : DaoOps) (props : Option EntityProperties)
    (now : Nat) (fresh : String) (obj : Obj) (db : Db) :
    (obj.id.isSome = true →
      insertA ops props now fresh obj db =
        (.rejected (.msg "Object has a defined id"), db, [])) ∧
    (idRejectCond1 props obj = true →
      insertB ops props now fresh obj db =
        (.rejected (.msg "Object has a defined id"), db, [])) ∧
    (idRejectCond2 props obj = true →
      insertB ops props now fresh obj db =
        (.rejected (.msg ("Object does not have an id and the dao has the attribute " ++
          "entityProperties.autoGenerated as false or undefined")), db, [])) ∧
    (∀ p : EntityProperties, props = some p → p.autoGenerated = some true →
      obj.id = none → ops.validateEntity obj = [] → ops.validateBeforeInsert obj db = [] →
      (insertEngineInputB ops props now fresh obj).id = some fresh ∧
      insertB ops props now fresh obj db =
        (.ok (insertResultB ops props now fresh obj db),
          (insertEnginePairB ops props now fresh obj db).2,
          [DaoStep.stepValidateEntity, DaoStep.stepValidateBeforeInsert,
            DaoStep.stepUuid, DaoStep.stepTimestamp,
            DaoStep.stepEngineInsert (insertEngineInputB ops props now fresh obj),
            DaoStep.stepConvertAfter])) := by
  refine ⟨?_, ?_, ?_, ?_⟩
  · intro h
    simp [insertA, h]
  · intro h
    simp [insertB, h]
  · intro h
    have hnone : obj.id.isNone = true := by
      unfold idRejectCond2 at h
      rw [Bool.and_eq_true] at h
      exact h.2
    have hid : obj.id = none := Option.isNone_iff_eq_none.mp hnone
    have h1 : idRejectCond1 props obj = false := by
      unfold idRejectCond1
      rcases props with _ | p
      · rfl
      · simp [hid]
    simp [insertB, h1, h]
  · intro p hp hag hid he hv
    subst hp
    constructor
    · rw [insertEngineInputB]
      have huuid : (UuidGenerator.assignUUIDToIdAttribute (some p) fresh obj).id =
          some fresh := by
        simp [UuidGenerator.assignUUIDToIdAttribute, hag]
      have hts : (TimeStampGenerator.generateTimeStampForInsert (some p) now
          (UuidGenerator.assignUUIDToIdAttribute (some p) fresh obj)).id = some fresh := by
        rw [TimeStampGenerator.generateTimeStampForInsert]
        split <;> simp [huuid]
      rw [addExtraValuesB_id, hts]
      simp
    · have h1 : idRejectCond1 (some p) obj = false := by
        simp [idRejectCond1, hid]
      have h2 : idRejectCond2 (some p) obj = false := by
        simp [idRejectCond2, hag]
      simp [insertB, h1, h2, List.length_eq_zero, he, hv, insertResultB, insertEnginePairB,
        insertEngineInputB]

theorem C5_id_generation_witness :
    insertA opsEchoW (some propsOnW) 0 "u" objIdW [] =
      (.rejected (.msg "Object has a defined id"), [], []) ∧
    (insertEngineInputB opsEchoW (some propsOnW) 0 "u" {}).id = some "u" := by
  have h1 := (C5_id_generation opsEchoW (some propsOnW) 0 "u" objIdW []).1 rfl
  have h2 := ((C5_id_generation opsEchoW (some propsOnW) 0 "u" {} []).2.2.2
    propsOnW rfl rfl rfl rfl rfl).1
  exact ⟨h1, h2⟩

/-- C6: when the DAO's entity properties enable timestamping, every successful
insert assigns `dateCreated` to the object handed to the engine's insert
method, and every successful update assigns `lastUpdate` to the object handed
to the engine's update method; and, provided the engine echoes these
attributes back on its stored record (as a store does), the object the caller
receives carries them.  Stated for the db-engine-util base class. -/
theorem C6_timestamping (ops : DaoOps) (p : EntityProperties) (now : Nat)
    (fresh : String) (obj : Obj) (db : Db) (hts : p.timeStamp = some true) :
    (idRejectCond1 (some p) obj = false → idRejectCond2 (some p) obj = false →
      ops.validateEntity obj = [] → ops.validateBeforeInsert obj db = [] →
      (insertEngineInputB ops (some p) now fresh obj).dateCreated = some now ∧
      (insertB ops (some p) now fresh obj db).1 =
        .ok (insertResultB ops (some p) now fresh obj db) ∧
      ((∀ o d, ((ops.insertMethod o d).1).dateCreated = o.dateCreated) →
        (insertResultB ops (some p) now fresh obj db).dateCreated = some now)) ∧
    (isBlankString obj.id = false →
      ops.validateEntity obj = [] → ops.validateBeforeUpdate obj db = [] →
      (updateEngineInputB ops (some p) now obj).lastUpdate = some now ∧
      (updateB ops (some p) now obj db).1 =
        .ok (updateResultB ops (some p) now obj db) ∧
      ((∀ o d, ((ops.updateMethod o d).1).lastUpdate = o.lastUpdate) →
        (updateResultB ops (some p) now obj db).lastUpdate = some now)) := by
  have hstamp : ∀ o : Obj,
      (TimeStampGenerator.generateTimeStampForInsert (some p) now o).dateCreated =
        some now := by
    intro o
    simp [TimeStampGenerator.generateTimeStampForInsert, hts]
  have hstampU : ∀ o : Obj,
      (TimeStampGenerator.generateTimeStampForUpdate (some p) now o).lastUpdate =
        some now := by
    intro o
    simp [TimeStampGenerator.generateTimeStampForUpdate, hts]
  constructor
  · intro hc1 hc2 he hv
    have hinp : (insertEngineInputB ops (some p) now fresh obj).dateCreated = some now := by
      rw [insertEngineInputB, addExtraValuesB_dateCreated, hstamp]
      simp
    refine ⟨hinp, ?_, ?_⟩
    · simp [insertB, hc1, hc2, List.length_eq_zero, he, hv, insertResultB, insertEnginePairB,
        insertEngineInputB]
    · intro heng
      have hraw : ((insertEnginePairB ops (some p) now fresh obj db).1).dateCreated =
          some now := by
        rw [insertEnginePairB, heng, hinp]
      rw [insertResultB, addExtraValuesB_dateCreated, hraw]
      simp
  · intro hbl he hv
    have hinp : (updateEngineInputB ops (some p) now obj).lastUpdate = some now := by
      rw [updateEngineInputB, addExtraValuesB_lastUpdate, hstampU]
      simp
    refine ⟨hinp, ?_, ?_⟩
    · simp [updateB, hbl, List.length_eq_zero, he, hv, updateResultB, updateEnginePairB,
        updateEngineInputB]
    · intro heng
      have hraw : ((updateEnginePairB ops (some p) now obj db).1).lastUpdate = some now := by
        rw [updateEnginePairB, heng, hinp]
      rw [updateResultB, addExtraValuesB_lastUpdate, hraw]
      simp

theorem C6_timestamping_witness :
    (insertEngineInputB opsEchoW (some propsOnW) 7 "u" {}).dateCreated = some 7 ∧
    (insertResultB opsEchoW (some propsOnW) 7 "u" {} []).dateCreated = some 7 ∧
    (updateEngineInputB opsEchoW (some propsOnW) 9 objIdW).lastUpdate = some 9 ∧
    (updateResultB opsEchoW (some propsOnW) 9 objIdW []).lastUpdate = some 9 := by
  have h := C6_timestamping opsEchoW propsOnW 7 "u" {} [] rfl
  have hu := C6_timestamping opsEchoW propsOnW 9 "u" objIdW [] rfl
  obtain ⟨h1, -, h3⟩ := h.1 (by decide) (by decide) rfl rfl
  obtain ⟨h4, -, h6⟩ := hu.2 (by decide) rfl rfl
  exact ⟨h1, h3 (fun o d => rfl), h4, h6 (fun o d => rfl)⟩

/-- C7 (counterexample): the two abstract DAO base classes do not have
equivalent insert semantics.  With the same (trivially passing) validators and
the same echoing engine, entity properties with `autoGenerated = false` and an
object whose id is `"existing"`, the part_000 insert rejects with
'Object has a defined id' while the db-engine-util insert resolves. -/
theorem C7_counterexample :
    (insertA opsEchoW (some propsOffW) 0 "u" objIdW []).1 =
      DaoResult.rejected (.msg "Object has a defined id") ∧
    (insertB opsEchoW (some propsOffW) 0 "u" objIdW []).1 ≠
      (insertA opsEchoW (some propsOffW) 0 "u" objIdW []).1 := by
  refine ⟨?_, ?_⟩ <;> decide

/-- C7 (amended): given the same `validateEntity`, `validateBeforeInsert` and
engine `insertMethod`, and an object that passes both variants' id
preconditions (no id, auto-generation enabled), the two base classes agree on
the validation behaviour of insert — they reject with exactly the same values,
and one calls the engine iff the other does; their insert semantics are
nevertheless not equivalent in general, because the id precondition differs
when auto-generation is disabled (see the counterexample) and the generated
uuid is stored in the `uuid` attribute by part_000 but in the `id` attribute
by db-engine-util. -/
theorem C7_insert_validation_equivalence (ops : DaoOps) (props : Option EntityProperties)
    (p : EntityProperties) (now : Nat) (fresh : String) (obj : Obj) (db : Db)
    (hp : props = some p) (hag : p.autoGenerated = some true) (hid : obj.id = none) :
    (∀ r : Reject, (insertA ops props now fresh obj db).1 = .rejected r ↔
      (insertB ops props now fresh obj db).1 = .rejected r) ∧
    ((∃ inp, DaoStep.stepEngineInsert inp ∈ (insertA ops props now fresh obj db).2.2) ↔
      (∃ inp, DaoStep.stepEngineInsert inp ∈ (insertB ops props now fresh obj db).2.2)) := by
  subst hp
  have hc1 : idRejectCond1 (some p) obj = false := by
    simp [idRejectCond1, hid]
  have hc2 : idRejectCond2 (some p) obj = false := by
    simp [idRejectCond2, hag]
  by_cases he : ops.validateEntity obj = []
  · by_cases hv : ops.validateBeforeInsert obj db = []
    · constructor
      · intro r
        simp [insertA, insertB, hid, hc1, hc2, List.length_eq_zero, he, hv]
      · simp [insertA, insertB, hid, hc1, hc2, List.length_eq_zero, he, hv]
    · constructor
      · intro r
        simp [insertA, insertB, hid, hc1, hc2, List.length_eq_zero, he, hv]
      · simp [insertA, insertB, hid, hc1, hc2, List.length_eq_zero, he, hv]
  · constructor
    · intro r
      simp [insertA, insertB, hid, hc1, hc2, List.length_eq_zero, he]
    · simp [insertA, insertB, hid, hc1, hc2, List.length_eq_zero, he]

theorem C7_insert_validation_equivalence_witness :
    ((insertA opsFailW (some propsOnW) 0 "u" {} []).1 =
        DaoResult.rejected (.errors [errW]) ↔
      (insertB opsFailW (some propsOnW) 0 "u" {} []).1 =
        DaoResult.rejected (.errors [errW])) :=
  (C7_insert_validation_equivalence opsFailW (some propsOnW) propsOnW 0 "u" {} []
    rfl rfl rfl).1 (.errors [errW])

/-- C8: every part_000 DAO operation that returns entities preserves the
identity and timestamp attributes across the rehydration step: whenever the
raw database record has a non-nil `id`, `uuid`, `dateCreated` or `lastUpdate`,
the object returned to the caller carries the same value for that attribute —
even if `convertAfterDbOperation` dropped it (the conversion is universally
quantified inside `ops`).  For the list-returning operations the raw query
results and the returned objects are related pointwise by
`preservesIdentity`; for `insert`/`update`/`insertMany` the clause covers the
success path and relates the engine's stored record(s) to the resolved
object(s). -/
theorem C8_rehydration_preserves_identity (ops : DaoOps) :
    (∀ o raw : Obj, preservesIdentity raw (addExtraValuesA o raw)) ∧
    (∀ i db raw, ops.findOneByIdMethod i db = some raw →
      findOneByIdA ops i db = some (addExtraValuesA (ops.convertAfterDbOperation raw) raw) ∧
      preservesIdentity raw (addExtraValuesA (ops.convertAfterDbOperation raw) raw)) ∧
    (∀ a v db raw, ops.findOneByAttributeMethod a v db = some raw →
      findOneByAttributeA ops a v db =
        some (addExtraValuesA (ops.convertAfterDbOperation raw) raw) ∧
      preservesIdentity raw (addExtraValuesA (ops.convertAfterDbOperation raw) raw)) ∧
    (∀ db, List.Forall₂ preservesIdentity (ops.findAllMethod db) (findAllA ops db)) ∧
    (∀ ids db, List.Forall₂ preservesIdentity (ops.findAllByIdsMethod ids db)
      (findAllByIdsA ops ids db)) ∧
    (∀ a v db, List.Forall₂ preservesIdentity (ops.findAllByAttributeMethod a v db)
      (findAllByAttributeA ops a v db)) ∧
    (∀ props now fresh obj db, obj.id = none → ops.validateEntity obj = [] →
      ops.validateBeforeInsert obj db = [] →
      (insertA ops props now fresh obj db).1 = .ok (insertResultA ops props now fresh obj db) ∧
      preservesIdentity (insertEnginePairA ops props now fresh obj db).1
        (insertResultA ops props now fresh obj db)) ∧
    (∀ props now obj db, isValidId obj.id = true → ops.validateEntity obj = [] →
      ops.validateBeforeUpdate obj db = [] →
      (updateA ops props now obj db).1 = .ok (updateResultA ops props now obj db) ∧
      preservesIdentity (updateEnginePairA ops props now obj db).1
        (updateResultA ops props now obj db)) ∧
    (∀ props now fresh objs db conv, (∀ o ∈ objs, (o : Obj).id = none) →
      convertAllA ops props now fresh objs = .ok conv →
      (insertManyA ops props now fresh objs db).1 =
        .ok ((ops.insertManyMethod conv db).1.map
          (fun v => addExtraValuesA (ops.convertAfterDbOperation v) v)) ∧
      List.Forall₂ preservesIdentity (ops.insertManyMethod conv db).1
        ((ops.insertManyMethod conv db).1.map
          (fun v => addExtraValuesA (ops.convertAfterDbOperation v) v))) := by
  refine ⟨?_, ?_, ?_, ?_, ?_, ?_, ?_, ?_, ?_⟩
  · intro o raw
    exact preservesIdentity_addExtraValuesA o raw
  · intro i db raw h
    exact ⟨by rw [findOneByIdA, h], preservesIdentity_addExtraValuesA _ raw⟩
  · intro a v db raw h
    exact ⟨by rw [findOneByAttributeA, h], preservesIdentity_addExtraValuesA _ raw⟩
  · intro db
    exact forall2_map_of_rel preservesIdentity _
      (fun a => preservesIdentity_addExtraValuesA _ a) _
  · intro ids db
    exact forall2_map_of_rel preservesIdentity _
      (fun a => preservesIdentity_addExtraValuesA _ a) _
  · intro a v db
    exact forall2_map_of_rel preservesIdentity _
      (fun a => preservesIdentity_addExtraValuesA _ a) _
  · intro props now fresh obj db hid he hv
    constructor
    · simp [insertA, hid, List.length_eq_zero, he, hv, insertResultA, insertEnginePairA,
        insertEngineInputA]
    · exact preservesIdentity_addExtraValuesA _ _
  · intro props now obj db hval he hv
    constructor
    · have hval' : (!(isValidId obj.id)) = false := by rw [hval]; rfl
      simp [updateA, hval', List.length_eq_zero, he, hv, updateResultA, updateEnginePairA,
        updateEngineInputA]
    · exact preservesIdentity_addExtraValuesA _ _
  · intro props now fresh objs db conv hids hconv
    constructor
    · have hany : objs.any (fun obj => obj.id.isSome) = false := by
        rw [List.any_eq_false]
        intro o ho
        simp [hids o ho]
      rw [insertManyA, hany]
      simp [hconv]
    · exact forall2_map_of_rel preservesIdentity _
        (fun a => preservesIdentity_addExtraValuesA _ a) _

theorem C8_rehydration_preserves_identity_witness :
    findOneByIdA opsDropW "x" [] =
      some (addExtraValuesA (opsDropW.convertAfterDbOperation rawW) rawW) ∧
    preservesIdentity rawW (addExtraValuesA (opsDropW.convertAfterDbOperation rawW) rawW) :=
  (C8_rehydration_preserves_identity opsDropW).2.1 "x" [] rawW rfl

/-- C2 (counterexample): `RoleService.update` does not keep unchanged the
associations whose permission-bit id is present both before and after, and it
does not insert associations only for newly added ids: with role `role1`
already associated to permission bit `p1` and an update whose new list still
contains `p1`, the update nevertheless passes `deleteAllByIdRole(role1)` to
the DAO (deleting the existing association) and hands the association
(`role1`, `p1`) — not newly added — to `insertMany`. -/
theorem C2_counterexample :
    RolePermissionBitEntity.mk (some "role1") "p1" ∈ assocStW ∧
    (RoleService.update depsW assocStW roleUpdInputW).2.2.deleteAllByIdRoleArg =
      some (some "role1") ∧
    (RoleService.update depsW assocStW roleUpdInputW).2.2.insertManyArg =
      some [RolePermissionBitEntity.mk (some "role1") "p1"] := by
  refine ⟨?_, ?_, ?_⟩ <;> decide

/-- C2 (amended): `RoleService.update` replaces the role's associations
wholesale rather than by set difference: on a validated update it passes the
updated role's id to `deleteAllByIdRole` (removing **every** existing
association of the role, including those whose permission-bit id remains in
the new list), and inserts one association per distinct permission-bit id of
the new list (including ids that were already associated); the resulting
association store is the old store minus all of the role's associations plus
exactly the deduplicated new ones. -/
theorem C2_update_replaces_associations (deps : RoleServiceDeps)
    (st : List RolePermissionBitEntity) (object : RoleInput)
    (pbs : List PermissionBitRef) (updatedRole : RoleEntity)
    (hpb : object.permissionBits = some pbs)
    (hval : RoleService.validate deps object = none)
    (hupd : deps.roleDaoUpdate { mkRoleEntityFrom object with
      dateCreated := object.dateCreated
      id := object.id } = .ok updatedRole) :
    (RoleService.update deps st object).2.1 =
      st.filter (fun a => decide (a.idRole ≠ object.id)) ++
        roleAssociationsFor updatedRole.id pbs ∧
    (RoleService.update deps st object).2.2.deleteAllByIdRoleArg = some object.id ∧
    (RoleService.update deps st object).2.2.insertManyArg =
      some (roleAssociationsFor updatedRole.id pbs) := by
  refine ⟨?_, ?_, ?_⟩ <;>
    simp [RoleService.update, hval, hupd, hpb, roleAssociationsFor]

/-- The role entity the echoing role DAO returns for `roleUpdInputW`. -/
def updatedRoleW : RoleEntity :=
  { name := "admin", description := "", enabled := true, isRoot := false,
    idParentRole := none, id := some "role1", dateCreated := none }

theorem C2_update_replaces_associations_witness :
    (RoleService.update depsW assocStW roleUpdInputW).2.1 =
      [RolePermissionBitEntity.mk (some "role1") "p1"] := by
  have h := C2_update_replaces_associations depsW assocStW roleUpdInputW
    [⟨.str "p1"⟩] updatedRoleW rfl (by decide) rfl
  rw [h.1]
  decide

/-- C3: for every input to `RoleService.insert` that passes validation, the id
list is deduplicated before the associations are built: the list handed to
the association DAO's `insertMany` contains exactly one association per
distinct permission-bit id (pairwise-distinct ids, all strings by the `hstr`
hypothesis, covering exactly the input's ids), so the number of inserted
associations equals the number of distinct ids in the input list. -/
theorem C3_insert_dedups_permission_bits (deps : RoleServiceDeps)
    (st : List RolePermissionBitEntity) (object : RoleInput)
    (pbs : List PermissionBitRef) (insertedRole : RoleEntity)
    (hpb : object.permissionBits = some pbs)
    (hval : RoleService.validate deps object = none)
    (hins : deps.roleDaoInsert (mkRoleEntityFrom object) = .ok insertedRole)
    (hstr : ∀ x ∈ pbs, isString (PermissionBitRef.id x) = true) :
    (RoleService.insert deps st object).2.2.insertManyArg =
      some (roleAssociationsFor insertedRole.id pbs) ∧
    (roleAssociationsFor insertedRole.id pbs).length =
      (pbs.map (fun o => o.id)).toFinset.card ∧
    ((roleAssociationsFor insertedRole.id pbs).map
      (fun a => a.idPermissionBit)).Nodup ∧
    (∀ s : String, s ∈ (roleAssociationsFor insertedRole.id pbs).map
        (fun a => a.idPermissionBit) ↔ ∃ x ∈ pbs, jsStr (PermissionBitRef.id x) = s) := by
  refine ⟨?_, ?_, ?_, ?_⟩
  · simp [RoleService.insert, hval, hins, hpb, roleAssociationsFor]
  · rw [roleAssociationsFor, List.length_map, length_lodashUniq]
  · rw [roleAssociationsFor, List.map_map]
    have hmap : ((fun a => RolePermissionBitEntity.idPermissionBit a) ∘
        fun i => RolePermissionBitEntity.mk insertedRole.id (jsStr i)) = jsStr := rfl
    rw [hmap]
    refine List.Nodup.map_on ?_ (nodup_lodashUniq _)
    intro x hx y hy hxy
    have hx' := (mem_lodashUniq x _).mp hx
    have hy' := (mem_lodashUniq y _).mp hy
    obtain ⟨px, hpx, hpx2⟩ := List.mem_map.mp hx'
    obtain ⟨py, hpy, hpy2⟩ := List.mem_map.mp hy'
    have hxs := hstr px hpx
    have hys := hstr py hpy
    rw [hpx2] at hxs
    rw [hpy2] at hys
    cases x with
    | str a =>
      cases y with
      | str b =>
        rw [show jsStr (JsVal.str a) = a from rfl, show jsStr (JsVal.str b) = b from rfl]
          at hxy
        rw [hxy]
      | other => exact absurd hys (by simp [isString])
    | other => exact absurd hxs (by simp [isString])
  · intro s
    rw [roleAssociationsFor, List.map_map]
    have hmap : ((fun a => RolePermissionBitEntity.idPermissionBit a) ∘
        fun i => RolePermissionBitEntity.mk insertedRole.id (jsStr i)) = jsStr := rfl
    rw [hmap]
    constructor
    · intro hmem
      obtain ⟨i, hi, hi2⟩ := List.mem_map.mp hmem
      obtain ⟨px, hpx, hpx2⟩ := List.mem_map.mp ((mem_lodashUniq i _).mp hi)
      exact ⟨px, hpx, by rw [hpx2, hi2]⟩
    · rintro ⟨x, hx, hx2⟩
      refine List.mem_map.mpr ⟨x.id, (mem_lodashUniq _ _).mpr ?_, hx2⟩
      exact List.mem_map.mpr ⟨x, hx, rfl⟩

/-- The role entity the role DAO of `depsW` returns for `roleInsInputW`. -/
def insertedRoleW : RoleEntity :=
  { name := "admin2", description := "", enabled := true, isRoot := false,
    idParentRole := none, id := some "role1", dateCreated := none }

theorem C3_insert_dedups_permission_bits_witness :
    (RoleService.insert depsW [] roleInsInputW).2.2.insertManyArg =
      some [RolePermissionBitEntity.mk (some "role1") "p1",
        RolePermissionBitEntity.mk (some "role1") "p2"] ∧
    ((roleInsInputW.permissionBits.getD []).map (fun o => o.id)).toFinset.card = 2 := by
  have h := C3_insert_dedups_permission_bits depsW [] roleInsInputW
    [⟨.str "p1"⟩, ⟨.str "p2"⟩, ⟨.str "p1"⟩] insertedRoleW
    rfl (by decide) rfl (by decide)
  refine ⟨?_, by decide⟩
  rw [h.1]
  decide
